/-
Verification of the tick-ingestion / tick-store / resampling / pairs-analysis
core of the repository, as a shallow embedding in Lean 4.

Source files embedded:
  src/src/ingestion/websocket_client.py  (normalize_tick_data, connect_and_listen)
  src/src/storage/db_manager.py          (DBManager.save_tick, DBManager.get_raw_ticks)
  src/src/analytics/resampling.py        (Resampler.resample_to_ohlcv)
  src/src/analytics/pairs_trading.py     (PairsAnalyst methods)
  src/src/api/api_server.py              (get_pairs_analysis endpoint)

Modelling conventions:
  * Python floats are modelled as ℚ; float NaN values produced by pandas
    (rolling windows that are not yet full, sample std of a single point,
    0/0 divisions) are modelled as `Option ℚ` with `none` for NaN.
  * Millisecond epoch timestamps are modelled as ℤ.
  * External libraries (the statsmodels OLS fit, the adfuller routine,
    np.log) are modelled by their documented closed forms or, where the
    routine is a numerical black box (adfuller, log), by an explicit
    function parameter.
  * Python exceptions are modelled with `Except String`.
-/
import Mathlib

/-! ## JSON messages and normalization (src/src/ingestion/websocket_client.py) -/

/-- A JSON scalar value as `json.loads` produces it: strings, integer
numbers, non-integer numbers, and null.  (Objects nested inside fields do
not occur in the trade messages the code reads.) -/
inductive JVal where
  | str (s : String)
  | int (n : ℤ)
  | num (q : ℚ)
  | null
deriving DecidableEq, Repr

/-- An inbound websocket message after `json.loads`: `none` models a
message that is malformed JSON (or not a JSON object), on which the code
raises `json.JSONDecodeError` / `AttributeError`, both caught; `some j`
models a JSON object with fields `j`. -/
def RawMsg : Type := Option (List (String × JVal))

/-- Python `j.get(k)`: the first binding of the key, or `None`. -/
def jget (j : List (String × JVal)) (k : String) : Option JVal :=
  (j.find? (fun p => p.1 = k)).map (fun p => p.2)

/-- Python `v.upper()` on the result of `j.get('s')`: an `AttributeError`
(modelled as an error) when the field is absent or not a string. -/
def asStr (v : Option JVal) : Except String String :=
  match v with
  | some (.str s) => .ok s.toUpper
  | some _ => .error "AttributeError"
  | none => .error "AttributeError"

/-- Python `ts_ms / 1000.0` and `float(...)` applied to the exchange trade
timestamp `j.get('T')`: succeeds on a JSON integer, raises `TypeError`
when the field is absent or null (`None / 1000.0`). -/
def asIntMs (v : Option JVal) : Except String ℤ :=
  match v with
  | some (.int n) => .ok n
  | some _ => .error "TypeError"
  | none => .error "TypeError"

/-- Decimal-string parsing as Python `float(str)` performs it on the
price/size fields Binance sends (an optional sign, digits, an optional
fractional part; exponents do not occur in these fields). -/
def parseDecimalDigits (cs : List Char) (acc : ℚ) : Option ℚ :=
  match cs with
  | [] => some acc
  | c :: rest =>
    if c.isDigit then parseDecimalDigits rest (acc * 10 + ((c.toNat - 48 : ℕ) : ℚ))
    else none

/-- Fractional part of a decimal string. -/
def parseFracDigits (cs : List Char) (acc : ℚ) (scale : ℚ) : Option ℚ :=
  match cs with
  | [] => some acc
  | c :: rest =>
    if c.isDigit then
      parseFracDigits rest (acc + ((c.toNat - 48 : ℕ) : ℚ) / scale) (scale * 10)
    else none

/-- Parse an unsigned decimal literal `digits[.digits]`. -/
def parseUnsignedDecimal (cs : List Char) : Option ℚ :=
  match cs.span (fun c => c.isDigit) with
  | (intPart, rest) =>
    if intPart.isEmpty then none
    else
      match parseDecimalDigits intPart 0 with
      | none => none
      | some ip =>
        match rest with
        | [] => some ip
        | c :: frac =>
          if c = Char.ofNat 46 then
            if frac.isEmpty then some ip
            else (parseFracDigits frac 0 10).map (fun fp => ip + fp)
          else none

/-- Python `float(s)` on a string (sign + decimal literal), `ValueError`
modelled as `none`. -/
def parseDecimal (s : String) : Option ℚ :=
  match s.toList with
  | [] => none
  | c :: rest =>
    if c = Char.ofNat 45 then (parseUnsignedDecimal rest).map (fun q => -q)
    else if c = Char.ofNat 43 then parseUnsignedDecimal rest
    else parseUnsignedDecimal (c :: rest)

/-- Python `float(j.get(k))` on the price/size fields: accepts JSON
numbers and numeric strings, raises (`TypeError`/`ValueError`) on null,
absent fields and non-numeric strings. -/
def asFloat (v : Option JVal) : Except String ℚ :=
  match v with
  | some (.int n) => .ok (n : ℚ)
  | some (.num q) => .ok q
  | some (.str s) =>
    match parseDecimal s with
    | some q => .ok q
    | none => .error "ValueError"
  | some .null => .error "TypeError"
  | none => .error "TypeError"

/-- The normalized tick dictionary built by `normalize_tick_data`.
The `ts` field in the source is the ISO rendering of
`datetime.fromtimestamp(raw_ts_ms / 1000.0)`; at millisecond precision
that rendering is a bijective encoding of the instant, so it is modelled
by the instant itself, in seconds. -/
structure TickDict where
  symbol : String
  ts : ℚ
  price : ℚ
  size : ℚ
  raw_ts_ms : ℤ
deriving DecidableEq, Repr

/-- Embedding of `normalize_tick_data` (websocket_client.py lines 13-39):
parse the message, accept only events with `e = "trade"`, read the
symbol/timestamp/price/size fields; every exception raised while doing so
(JSONDecodeError, AttributeError, TypeError, ValueError, KeyError) is
caught by the two `except` clauses and turned into `None`. -/
def normalize_tick_data (raw : RawMsg) : Option TickDict :=
  match raw with
  | none => none
  | some j =>
    if jget j "e" = some (.str "trade") then
      match (do
        let ts_ms ← asIntMs (jget j "T")
        let sym ← asStr (jget j "s")
        let p ← asFloat (jget j "p")
        let q ← asFloat (jget j "q")
        pure (⟨sym, (ts_ms : ℚ) / 1000, p, q, ts_ms⟩ : TickDict) : Except String TickDict) with
      | .ok t => some t
      | .error _ => none
    else none

/-- The inner receive loop of `connect_and_listen` (websocket_client.py
lines 62-67) over a finite trace of inbound messages: each message is
normalized and, when a tick results, delivered synchronously to the sink
(`data_callback`); messages that normalize to `None` are skipped and the
loop continues with the next message. -/
def connect_and_listen_deliveries (msgs : List RawMsg) : List TickDict :=
  msgs.filterMap normalize_tick_data

/-! ## Tick storage (src/src/storage/db_manager.py) -/

/-- One row of the `raw_ticks` table. -/
structure TickRow where
  id : String
  symbol : String
  ts : ℚ
  price : ℚ
  size : ℚ
  raw_ts_ms : ℤ
deriving DecidableEq, Repr

/-- The unique id `save_tick` builds: `f"{symbol}_{raw_ts_ms}"` (the dict
value is the integer trade timestamp, so the Python f-string renders it
exactly as `toString` renders an integer). -/
def tickId (symbol : String) (raw_ts_ms : ℤ) : String :=
  symbol ++ "_" ++ toString raw_ts_ms

/-- The row `save_tick` constructs from a normalized tick dict. -/
def mkRow (t : TickDict) : TickRow :=
  ⟨tickId t.symbol t.raw_ts_ms, t.symbol, t.ts, t.price, t.size, t.raw_ts_ms⟩

/-- Embedding of `DBManager.save_tick` (db_manager.py lines 61-89): the
table is a list of committed rows in insertion order; `id` is the primary
key, so committing a row whose id is already present raises the UNIQUE
constraint error, which the code catches and ignores (`pass`), leaving
the table unchanged. -/
def save_tick (db : List TickRow) (t : TickDict) : List TickRow :=
  if db.any (fun r => r.id = tickId t.symbol t.raw_ts_ms) then db
  else db ++ [mkRow t]

/-- Comparison used by the `ORDER BY raw_ts_ms` clause. -/
def byTs (a b : TickRow) : Prop := a.raw_ts_ms ≤ b.raw_ts_ms

instance : DecidableRel byTs := fun a b => inferInstanceAs (Decidable (a.raw_ts_ms ≤ b.raw_ts_ms))

instance : IsTotal TickRow byTs := ⟨fun a b => le_total a.raw_ts_ms b.raw_ts_ms⟩

instance : IsTrans TickRow byTs := ⟨fun _ _ _ h h' => le_trans h h'⟩

/-- Embedding of `DBManager.get_raw_ticks` (db_manager.py lines 91-110):
select the rows of the given symbol with `raw_ts_ms >= start_time_ms`,
ordered ascending by `raw_ts_ms`. -/
def get_raw_ticks (db : List TickRow) (symbol : String) (start_time_ms : ℤ) : List TickRow :=
  (db.filter (fun r => r.symbol = symbol ∧ start_time_ms ≤ r.raw_ts_ms)).insertionSort byTs

/-! ## Resampling (src/src/analytics/resampling.py) -/

/-- A tick as the resampler sees it: the time index (milliseconds), the
price and the size. -/
structure RTick where
  t : ℤ
  price : ℚ
  size : ℚ
deriving DecidableEq, Repr

/-- An OHLCV bar (one row of the resampled frame). -/
structure Bar where
  open_time : ℤ
  Open : ℚ
  High : ℚ
  Low : ℚ
  Close : ℚ
  Volume : ℚ
deriving DecidableEq, Repr

/-- The right edge of the bucket a tick at time `t` falls in under
pandas `resample(freq, label='right', closed='right')` with bucket width
`tf`: the unique multiple `R` of `tf` with `t ≤ R < t + tf`, i.e. the
right end of the right-closed interval `(R - tf, R]` containing `t`. -/
def bucketOf (tf t : ℤ) : ℤ := t + (tf - t) % tf

/-- The bar aggregating one non-empty bucket, labeled by its right edge:
open is the first price, close the last, high/low the extrema, volume the
sum of sizes (resampling.py lines 64-74). -/
def mkBar (R : ℤ) (group : List RTick) : Bar :=
  match group with
  | [] => ⟨R, 0, 0, 0, 0, 0⟩
  | g :: gs =>
    { open_time := R
      Open := g.price
      High := gs.foldl (fun m r => max m r.price) g.price
      Low := gs.foldl (fun m r => min m r.price) g.price
      Close := gs.foldl (fun _ r => r.price) g.price
      Volume := ((g :: gs).map (fun r => r.size)).sum }

/-- Embedding of the aggregation core of `Resampler.resample_to_ohlcv`
(resampling.py lines 54-82) on an explicit tick list (the frame built by
`_get_ticks_for_resampling`, ordered by time): pandas assigns every tick
to the right-closed bucket ending at `bucketOf tf t`, emits a NaN row for
every empty bucket in the covered range, and `dropna(subset=['Open'])`
then removes exactly the empty buckets, so the surviving bars are the
ones of the non-empty buckets in time order; the result is `None` when
no ticks were found (and, after the dropna, a frame with at least one
tick can never be empty). -/
def resample_to_ohlcv (tf : ℤ) (ticks : List RTick) : Option (List Bar) :=
  match ticks with
  | [] => none
  | _ :: _ =>
    let labels := (ticks.map (fun t => bucketOf tf t.t)).dedup
    some (labels.map (fun R => mkBar R (ticks.filter (fun t => bucketOf tf t.t = R))))

/-- Embedding of `Resampler._get_ticks_for_resampling` (resampling.py
lines 13-40): query the store for the symbol from
`now - lookback_minutes` on and index the result by the tick timestamp
(the stored ISO timestamp parses back to the instant `raw_ts_ms`
milliseconds, which the model uses directly); `None` when the query
returns nothing. -/
def _get_ticks_for_resampling (db : List TickRow) (symbol : String)
    (now_ms lookback_minutes : ℤ) : Option (List RTick) :=
  let start_time_ms := now_ms - lookback_minutes * 60000
  let rows := get_raw_ticks db symbol start_time_ms
  if rows.isEmpty then none
  else some (rows.map (fun r => ⟨r.raw_ts_ms, r.price, r.size⟩))

/-- `Resampler.resample_to_ohlcv` including the store query. -/
def resampler_resample_to_ohlcv (db : List TickRow) (symbol : String) (tf : ℤ)
    (now_ms lookback_minutes : ℤ) : Option (List Bar) :=
  match _get_ticks_for_resampling db symbol now_ms lookback_minutes with
  | none => none
  | some ticks => resample_to_ohlcv tf ticks

/-! ## OLS hedge-ratio regression (src/src/analytics/pairs_trading.py) -/

/-- Sum of the regressor values of the aligned sample `(x_t, y_t)`. -/
def sumFst (d : List (ℚ × ℚ)) : ℚ := (d.map (fun p => p.1)).sum

/-- Sum of the dependent values. -/
def sumSnd (d : List (ℚ × ℚ)) : ℚ := (d.map (fun p => p.2)).sum

/-- Sum of the products `x_t * y_t`. -/
def sumMul (d : List (ℚ × ℚ)) : ℚ := (d.map (fun p => p.1 * p.2)).sum

/-- Sum of the squares of the regressor. -/
def sumSq (d : List (ℚ × ℚ)) : ℚ := (d.map (fun p => p.1 ^ 2)).sum

/-- Determinant of the normal equations of the one-regressor OLS fit with
intercept (`sm.OLS(Y, sm.add_constant(X))`). -/
def olsDen (d : List (ℚ × ℚ)) : ℚ := d.length * sumSq d - (sumFst d) ^ 2

/-- The fitted slope of `sm.OLS(Y, sm.add_constant(X)).fit()` in its
closed form (the coefficient the code reads as `results.params.get(sym2)`,
the hedge ratio). -/
def olsSlope (d : List (ℚ × ℚ)) : ℚ :=
  (d.length * sumMul d - sumFst d * sumSnd d) / olsDen d

/-- The fitted intercept of the same regression. -/
def olsIntercept (d : List (ℚ × ℚ)) : ℚ :=
  (sumSnd d - olsSlope d * sumFst d) / d.length

/-- The regression residuals `results.resid`: the spread series
`y_t - intercept - slope * x_t`. -/
def olsResiduals (d : List (ℚ × ℚ)) : List ℚ :=
  d.map (fun p => p.2 - olsIntercept d - olsSlope d * p.1)

/-! ## Rolling metrics (pairs_trading.py lines 70-95)

Rolling series are lists indexed like the input, with `none` where the
pandas series holds NaN.  The rolling std, z-score and correlation carry
the squares of the source values (variance, squared z, squared
correlation): squaring is injective on the non-negative std and preserves
definedness exactly (a float NaN arises iff a window is not yet full,
the sample std is taken of fewer than two points, or a 0/0 division
occurs), which is all the claims quantify over. -/

/-- The trailing window of size `W` ending at index `i` (the values a
pandas `rolling(window=W)` aggregates at row `i`). -/
def windowSlice (W : ℕ) (xs : List ℚ) (i : ℕ) : List ℚ :=
  (xs.take (i + 1)).drop (i + 1 - W)

/-- Mean of a list. -/
def qmean (l : List ℚ) : ℚ := l.sum / l.length

/-- Sum of squared deviations from the mean. -/
def sse (l : List ℚ) : ℚ := (l.map (fun x => (x - qmean l) ^ 2)).sum

/-- Sample variance (the square of the pandas `std()`, ddof = 1). -/
def sampleVar (l : List ℚ) : ℚ := sse l / ((l.length - 1 : ℕ) : ℚ)

/-- Sum of co-deviations of two aligned windows (numerator of the sample
covariance). -/
def covSlice (xs ys : List ℚ) : ℚ :=
  ((xs.zip ys).map (fun p => (p.1 - qmean xs) * (p.2 - qmean ys))).sum

/-- `spread.rolling(window=W).mean()`: NaN until the window is full. -/
def rollingMean (W : ℕ) (xs : List ℚ) : List (Option ℚ) :=
  (List.range xs.length).map (fun i =>
    if i + 1 < W then none else some (qmean (windowSlice W xs i)))

/-- `spread.rolling(window=W).std()` (carried as the variance): NaN until
the window is full and for windows of fewer than two points. -/
def rollingStd (W : ℕ) (xs : List ℚ) : List (Option ℚ) :=
  (List.range xs.length).map (fun i =>
    if i + 1 < W ∨ W < 2 then none else some (sampleVar (windowSlice W xs i)))

/-- `(spread - rolling_mean) / rolling_std` (carried as the squared
z-score): NaN wherever the rolling std is NaN, and where the rolling std
is zero (the window is then constant, so the numerator is zero too and
the float division is 0.0/0.0 = NaN). -/
def zScores (W : ℕ) (xs : List ℚ) : List (Option ℚ) :=
  (List.range xs.length).map (fun i =>
    if i + 1 < W ∨ W < 2 then none
    else
      let v := sampleVar (windowSlice W xs i)
      if v = 0 then none
      else some ((xs.getD i 0 - qmean (windowSlice W xs i)) ^ 2 / v))

/-- `df[syms[0]].rolling(window=W).corr(df[syms[1]])` (carried as the
squared correlation): NaN until the window is full, for windows of fewer
than two points, and where either window is constant (0.0/0.0). -/
def rollingCorr (W : ℕ) (xs ys : List ℚ) : List (Option ℚ) :=
  (List.range xs.length).map (fun i =>
    if i + 1 < W ∨ W < 2 then none
    else
      let sx := windowSlice W xs i
      let sy := windowSlice W ys i
      if sse sx = 0 ∨ sse sy = 0 then none
      else some ((covSlice sx sy) ^ 2 / (sse sx * sse sy)))

/-- The window-clamping rule at the top of `calculate_rolling_metrics`
(pairs_trading.py lines 74-76): `if window <= 0 or window > len(spread):
window = min(len(spread), 60)`. -/
def effectiveWindow (window : ℤ) (n : ℕ) : ℕ :=
  if window ≤ 0 ∨ (n : ℤ) < window then min n 60 else window.toNat

/-- The dictionary of series `calculate_rolling_metrics` returns. -/
structure RollingMetrics where
  z_score : List (Option ℚ)
  rolling_correlation : List (Option ℚ)
  rolling_spread_mean : List (Option ℚ)
  rolling_spread_std : List (Option ℚ)
deriving DecidableEq, Repr

/-- Embedding of `PairsAnalyst.calculate_rolling_metrics` (pairs_trading.py
lines 70-95): clamp the window, then compute the four rolling series over
the spread and the two aligned close-price columns. -/
def calculate_rolling_metrics (df_y df_x : List ℚ) (spread : List ℚ)
    (window : ℤ) : RollingMetrics :=
  let W := effectiveWindow window spread.length
  { z_score := zScores W spread
    rolling_correlation := rollingCorr W df_y df_x
    rolling_spread_mean := rollingMean W spread
    rolling_spread_std := rollingStd W spread }

/-- Number of defined (non-NaN) positions of a rolling series. -/
def countDefined (l : List (Option ℚ)) : ℕ := l.countP (fun o => o.isSome)

/-! ## Stationarity test (pairs_trading.py lines 97-125) -/

/-- What a successful `adfuller(clean_spread, autolag='AIC')` call
returns: test statistic, p-value, lag count, observation count, critical
values. -/
structure AdfRes where
  stat : ℚ
  pvalue : ℚ
  lags : ℕ
  nobs : ℕ
  crit : List (String × ℚ)
deriving DecidableEq, Repr

/-- The structured dictionary `run_adf_test` returns: the
insufficient-data marker, a full report, or the caught-failure
diagnostic. -/
inductive AdfReport where
  | insufficient (msg : String)
  | report (stat pvalue : ℚ) (lags nobs : ℕ) (crit : List (String × ℚ)) (stationary : Bool)
  | failed (msg : String)
deriving DecidableEq, Repr

/-- Python `round(q, 4)` (the display rounding the code applies to the
statistic and p-value; Python rounds half to even, which differs from
`round` only at exact midpoints that do not arise from float values in
practice). -/
def round4 (q : ℚ) : ℚ := (round (q * 10000) : ℤ) / 10000

/-- The insufficient-data marker string of `run_adf_test`. -/
def insufficientMsg : String := "Insufficient data points (min 20) for meaningful test."

/-- Embedding of `PairsAnalyst.run_adf_test` (pairs_trading.py lines
97-125): drop NaN points, return the insufficient-data marker below 20
observations, otherwise call `adfuller` (a numerical black box, passed in
as a function that either returns results or raises) inside try/except;
the stationarity boolean is `p-value < 0.05` on the unrounded p-value. -/
def run_adf_test (adf : List ℚ → Except String AdfRes)
    (spread : List (Option ℚ)) : AdfReport :=
  let clean_spread := spread.filterMap id
  if clean_spread.length < 20 then .insufficient insufficientMsg
  else
    match adf clean_spread with
    | .ok r => .report (round4 r.stat) (round4 r.pvalue) r.lags r.nobs r.crit
        (decide (r.pvalue < 1 / 20))
    | .error e => .failed ("ADF test failed: " ++ e)

/-! ## The full analysis pipeline and the API boundary -/

/-- The aligned two-column close-price frame `_align_and_prepare_data`
returns: pandas `merge` keeps the two series names when they differ and
suffixes them `_x`/`_y` when they collide. -/
structure AlignedCols where
  name1 : String
  name2 : String
  rows : List (ℤ × ℚ × ℚ)
deriving DecidableEq, Repr

/-- Inner join of two bar frames on their time index. -/
def innerJoin (b1 b2 : List Bar) : List (ℤ × ℚ × ℚ) :=
  b1.filterMap (fun b =>
    (b2.find? (fun b' => b'.open_time = b.open_time)).map
      (fun b' => (b.open_time, b.Close, b'.Close)))

/-- Embedding of `PairsAnalyst._align_and_prepare_data` (pairs_trading.py
lines 18-44): resample both symbols, inner-join the close columns on the
time index, return `None` when either frame is missing or when the merge
is empty. -/
def _align_and_prepare_data (db : List TickRow) (sym1 sym2 : String) (tf : ℤ)
    (now_ms lookback_minutes : ℤ) : Option AlignedCols :=
  match resampler_resample_to_ohlcv db sym1 tf now_ms lookback_minutes,
        resampler_resample_to_ohlcv db sym2 tf now_ms lookback_minutes with
  | some df1, some df2 =>
    let rows := innerJoin df1 df2
    if rows.isEmpty then none
    else some ⟨if sym1 = sym2 then sym1 ++ "_x" else sym1,
               if sym1 = sym2 then sym2 ++ "_y" else sym2, rows⟩
  | _, _ => none

/-- Column lookup `df_prices[name]`: a `KeyError` when no column carries
the name. -/
def colGet (c : AlignedCols) (n : String) : Except String (List ℚ) :=
  if n = c.name1 then .ok (c.rows.map (fun r => r.2.1))
  else if n = c.name2 then .ok (c.rows.map (fun r => r.2.2))
  else .error ("KeyError: " ++ n)

/-- Embedding of `PairsAnalyst.calculate_hedge_ratio_and_spread`
(pairs_trading.py lines 46-68): look the two close columns up by symbol
name (raising `KeyError` when a name is absent, which happens when the
merge suffixed the columns), take logs (`np.log`, passed in as a
function), and fit the OLS model; the hedge ratio is the slope, the
spread the residual series. -/
def calculate_hedge_ratio_and_spread (ln : ℚ → ℚ) (c : AlignedCols)
    (sym1 sym2 : String) : Except String (ℚ × List ℚ) := do
  let ys ← colGet c sym1
  let xs ← colGet c sym2
  let d := (xs.zip ys).map (fun p => (ln p.1, ln p.2))
  pure (olsSlope d, olsResiduals d)

/-- One row of the final assembled frame (`final_df` after `dropna`):
all rolling values present. -/
structure ResultRow where
  ts : ℤ
  Price_Y : ℚ
  Price_X : ℚ
  Spread : ℚ
  Z_Score : ℚ
  Rolling_Mean : ℚ
  Rolling_Std : ℚ
  Rolling_Correlation : ℚ
deriving DecidableEq, Repr

/-- `final_df.dropna()` (pairs_trading.py lines 147-169): combine the
aligned prices, the spread and the rolling series by position and keep
exactly the rows where every rolling value is defined. -/
def assembleRows (rows : List (ℤ × ℚ × ℚ)) (spread : List ℚ)
    (rm : RollingMetrics) : List ResultRow :=
  (List.range rows.length).filterMap (fun i =>
    match rows.get? i, spread.get? i, rm.z_score.get? i,
          rm.rolling_spread_mean.get? i, rm.rolling_spread_std.get? i,
          rm.rolling_correlation.get? i with
    | some r, some s, some (some z), some (some m), some (some sd), some (some cr) =>
        some ⟨r.1, r.2.1, r.2.2, s, z, m, sd, cr⟩
    | _, _, _, _, _, _ => none)

/-- The `self.metadata` dictionary `run_full_analysis` stores. -/
structure AnalysisMetadata where
  Symbol_Y : String
  Symbol_X : String
  Timeframe : ℤ
  Rolling_Window : ℤ
  Hedge_Ratio : ℚ
  ADF_Test_Results : AdfReport
deriving DecidableEq, Repr

/-- The mutable state of the `PairsAnalyst` object: its `metadata`
attribute (`{}` at construction, modelled as `none`). -/
structure AnalystState where
  metadata : Option AnalysisMetadata
deriving DecidableEq, Repr

/-- Embedding of `PairsAnalyst.run_full_analysis` (pairs_trading.py lines
127-169) with the object state passed explicitly: align, fit the hedge
ratio (a raised exception propagates as `.error`), compute rolling
metrics and the ADF report, overwrite `self.metadata`, and return the
assembled frame after `dropna`; the early `None` returns leave the state
untouched. -/
def run_full_analysis (ln : ℚ → ℚ) (adf : List ℚ → Except String AdfRes)
    (st : AnalystState) (db : List TickRow) (sym1 sym2 : String) (tf : ℤ)
    (rolling_window : ℤ) (now_ms lookback_minutes : ℤ) :
    AnalystState × Except String (Option (List ResultRow)) :=
  match _align_and_prepare_data db sym1 sym2 tf now_ms lookback_minutes with
  | none => (st, .ok none)
  | some cols =>
    match calculate_hedge_ratio_and_spread ln cols sym1 sym2 with
    | .error e => (st, .error e)
    | .ok (hr, spread) =>
      let rm := calculate_rolling_metrics (cols.rows.map (fun r => r.2.1))
        (cols.rows.map (fun r => r.2.2)) spread rolling_window
      let adfRes := run_adf_test adf (spread.map some)
      (⟨some ⟨sym1, sym2, tf, rolling_window, round4 hr, adfRes⟩⟩,
       .ok (some (assembleRows cols.rows spread rm)))

/-- What the `/api/v1/analysis` handler sends back: a 404 for a missing
or empty frame, a 500 for an uncaught exception, or the success payload
combining the time series with the metadata read from the shared analyst
object after the run. -/
inductive ApiResponse where
  | notFound
  | serverError
  | success (metadata : Option AnalysisMetadata) (rows : List ResultRow)
deriving DecidableEq, Repr

/-- Embedding of the `get_pairs_analysis` endpoint (api_server.py lines
45-83): run the pipeline on the shared analyst state, 404 when the frame
is `None` or empty, 500 when the run raised, otherwise return the rows
plus `PAIRS_ANALYST.metadata`. -/
def get_pairs_analysis (ln : ℚ → ℚ) (adf : List ℚ → Except String AdfRes)
    (st : AnalystState) (db : List TickRow) (sym1 sym2 : String) (tf : ℤ)
    (rolling_window lookback_minutes now_ms : ℤ) : AnalystState × ApiResponse :=
  match run_full_analysis ln adf st db sym1 sym2 tf rolling_window now_ms lookback_minutes with
  | (st', .error _) => (st', .serverError)
  | (st', .ok none) => (st', .notFound)
  | (st', .ok (some rows)) =>
    if rows.isEmpty then (st', .notFound)
    else (st', .success st'.metadata rows)

/-! ## Theorems -/

/-- Claim C1: `TickStore` insert is idempotent.  Inserting a second tick
carrying the same identity key `(instrument, event_time)` is a successful
no-op, and when the key was fresh, after the two inserts the table holds
exactly one row for that key, carrying the fields of the first tick
regardless of the second tick's price/size. -/
theorem C1_insert_idempotent (db : List TickRow) (t1 t2 : TickDict)
    (hsym : t2.symbol = t1.symbol) (hts : t2.raw_ts_ms = t1.raw_ts_ms) :
    save_tick (save_tick db t1) t2 = save_tick db t1 ∧
    ((∀ r ∈ db, r.id ≠ tickId t1.symbol t1.raw_ts_ms) →
      (save_tick (save_tick db t1) t2).filter
        (fun r => r.id = tickId t1.symbol t1.raw_ts_ms) = [mkRow t1]) := by
  have hid : tickId t2.symbol t2.raw_ts_ms = tickId t1.symbol t1.raw_ts_ms := by
    rw [hsym, hts]
  by_cases hmem : ∃ r ∈ db, r.id = tickId t1.symbol t1.raw_ts_ms
  · have hany : db.any (fun r => r.id = tickId t1.symbol t1.raw_ts_ms) = true := by
      simpa [List.any_eq_true] using hmem
    constructor
    · simp [save_tick, hany, hid]
    · intro hfresh
      obtain ⟨r, hr, hrid⟩ := hmem
      exact absurd hrid (hfresh r hr)
  · have hany : db.any (fun r => r.id = tickId t1.symbol t1.raw_ts_ms) = false := by
      simpa [List.any_eq_true] using hmem
    have h1 : save_tick db t1 = db ++ [mkRow t1] := by
      simp [save_tick, hany]
    have h2 : save_tick (db ++ [mkRow t1]) t2 = db ++ [mkRow t1] := by
      have : (db ++ [mkRow t1]).any
          (fun r => r.id = tickId t2.symbol t2.raw_ts_ms) = true := by
        simp only [List.any_eq_true, List.mem_append, List.mem_singleton]
        exact ⟨mkRow t1, Or.inr rfl, by simp [mkRow, hid]⟩
      simp [save_tick, this]
    refine ⟨by rw [h1, h2], fun hfresh => ?_⟩
    rw [h1, h2, List.filter_append]
    have hdbnil : db.filter (fun r => r.id = tickId t1.symbol t1.raw_ts_ms) = [] := by
      simp only [List.filter_eq_nil_iff]
      intro r hr
      simpa using hfresh r hr
    rw [hdbnil]
    simp [mkRow, tickId]

/-- Claim C1 witness at a concrete store and tick pair. -/
theorem C1_insert_idempotent_witness :
    save_tick (save_tick [] ⟨"BTCUSDT", 1, 100, 2, 1000⟩) ⟨"BTCUSDT", 1, 999, 7, 1000⟩ =
      save_tick [] ⟨"BTCUSDT", 1, 100, 2, 1000⟩ ∧
    (save_tick (save_tick [] ⟨"BTCUSDT", 1, 100, 2, 1000⟩) ⟨"BTCUSDT", 1, 999, 7, 1000⟩).filter
        (fun r => r.id = tickId "BTCUSDT" 1000) =
      [mkRow ⟨"BTCUSDT", 1, 100, 2, 1000⟩] := by
  have h := C1_insert_idempotent [] ⟨"BTCUSDT", 1, 100, 2, 1000⟩
    ⟨"BTCUSDT", 1, 999, 7, 1000⟩ rfl rfl
  exact ⟨h.1, h.2 (by simp)⟩

/-- Claim C4: the store query returns exactly the stored ticks of the
requested instrument with `event_time ≥ since_time` (as a permutation of
that filter, so nothing in the window is omitted or duplicated and
nothing out of the window or of another instrument is included), sorted
ascending by `event_time`. -/
theorem C4_query_exact_sorted (db : List TickRow) (symbol : String) (since : ℤ) :
    (get_raw_ticks db symbol since).Perm
        (db.filter (fun r => r.symbol = symbol ∧ since ≤ r.raw_ts_ms)) ∧
    (get_raw_ticks db symbol since).Sorted byTs ∧
    ∀ r : TickRow, r ∈ get_raw_ticks db symbol since ↔
      (r ∈ db ∧ r.symbol = symbol ∧ since ≤ r.raw_ts_ms) := by
  refine ⟨List.perm_insertionSort _ _, List.sorted_insertionSort _ _, fun r => ?_⟩
  rw [get_raw_ticks, List.mem_insertionSort, List.mem_filter]
  simp

/-- The bucket label is the unique multiple of the bucket width `tf` in
the half-open interval `[t, t + tf)`; equivalently, `t` lies in the
right-closed interval `(R - tf, R]` ending at the label `R`. -/
theorem bucketOf_spec (tf t : ℤ) (h : 0 < tf) :
    bucketOf tf t % tf = 0 ∧ t ≤ bucketOf tf t ∧ bucketOf tf t < t + tf := by
  unfold bucketOf
  have h1 : 0 ≤ (tf - t) % tf := Int.emod_nonneg _ (ne_of_gt h)
  have h2 : (tf - t) % tf < tf := Int.emod_lt_of_pos _ h
  refine ⟨?_, by omega, by omega⟩
  have key : (t + (tf - t) % tf) % tf = (t + (tf - t)) % tf := by
    conv_lhs => rw [Int.add_emod]
    conv_rhs => rw [Int.add_emod]
    rw [Int.emod_emod_of_dvd _ dvd_rfl]
  rw [key]
  simp

/-- Characterisation of the bucket label: `bucketOf tf t = R` iff `R` is
a bucket boundary and the tick time `t` lies in `(R - tf, R]`. -/
theorem bucketOf_eq_iff (tf t R : ℤ) (h : 0 < tf) :
    bucketOf tf t = R ↔ (R % tf = 0 ∧ t ≤ R ∧ R < t + tf) := by
  constructor
  · rintro rfl
    exact bucketOf_spec tf t h
  · rintro ⟨h0, h1, h2⟩
    obtain ⟨g0, g1, g2⟩ := bucketOf_spec tf t h
    have hd : (bucketOf tf t - R) % tf = 0 := by
      rw [Int.sub_emod, g0, h0]
      simp
    have hdvd : tf ∣ bucketOf tf t - R := Int.dvd_of_emod_eq_zero hd
    have hz : bucketOf tf t - R = 0 :=
      Int.eq_zero_of_abs_lt_dvd hdvd (abs_lt.mpr (by omega))
    omega

/-- Every bar is labeled by its bucket's right edge. -/
theorem mkBar_open_time (R : ℤ) (g : List RTick) : (mkBar R g).open_time = R := by
  cases g <;> rfl

/-- Claim C2: resampling buckets are right-closed and right-labeled.
On the concrete input ticks `[(999ms, 100), (1000ms, 101), (1500ms, 102)]`
with arbitrary sizes and a 1-second timeframe, the output is one bar with
`open_time = 1000ms`, open 100, close 101, high 101, low 100 and volume
the sum of the first two sizes, plus a separate bar at
`open_time = 2000ms` for the third tick; in general, a tick whose time
lies exactly on a boundary (a multiple of the timeframe) is labeled by
that boundary itself. -/
theorem C2_right_closed_right_labeled (s1 s2 s3 : ℚ) :
    resample_to_ohlcv 1000 [⟨999, 100, s1⟩, ⟨1000, 101, s2⟩, ⟨1500, 102, s3⟩] =
      some [⟨1000, 100, 101, 100, 101, s1 + s2⟩, ⟨2000, 102, 102, 102, 102, s3⟩] ∧
    ∀ tf t : ℤ, 0 < tf → tf ∣ t → bucketOf tf t = t := by
  constructor
  · norm_num [resample_to_ohlcv, mkBar, bucketOf,
      List.dedup_cons_of_mem, List.dedup_cons_of_not_mem]
  · intro tf t htf hdvd
    have h0 : (tf - t) % tf = 0 := by
      apply Int.emod_eq_zero_of_dvd
      exact dvd_sub dvd_rfl hdvd
    unfold bucketOf
    omega

/-- Claim C2 witness at concrete sizes and a concrete boundary tick. -/
theorem C2_right_closed_right_labeled_witness :
    resample_to_ohlcv 1000 [⟨999, 100, 1⟩, ⟨1000, 101, 2⟩, ⟨1500, 102, 3⟩] =
      some [⟨1000, 100, 101, 100, 101, 1 + 2⟩, ⟨2000, 102, 102, 102, 102, 3⟩] ∧
    bucketOf 1000 2000 = 2000 :=
  ⟨(C2_right_closed_right_labeled 1 2 3).1,
   (C2_right_closed_right_labeled 1 2 3).2 1000 2000 (by decide) (by decide)⟩

/-- Claim C3: a bar exists for an interval iff at least one tick fell in
that (right-closed) interval: the output is `None` exactly when no ticks
fell in the query window, and for every bucket boundary `R` the output
contains a bar labeled `R` iff some tick's time lies in `(R - tf, R]`
(so empty intervals yield no bar and no forward-filled prices). -/
theorem C3_bar_iff_tick (tf : ℤ) (ticks : List RTick) (htf : 0 < tf) :
    (resample_to_ohlcv tf ticks = none ↔ ticks = []) ∧
    (∀ bars, resample_to_ohlcv tf ticks = some bars →
      ∀ R : ℤ, R % tf = 0 →
        ((∃ b ∈ bars, b.open_time = R) ↔
          ∃ tk ∈ ticks, tk.t ≤ R ∧ R < tk.t + tf)) := by
  constructor
  · cases ticks <;> simp [resample_to_ohlcv]
  · intro bars hbars R hR
    match ticks, hbars with
    | t0 :: rest, hbars =>
      have hb : bars = ((( t0 :: rest).map (fun t => bucketOf tf t.t)).dedup).map
          (fun R' => mkBar R' ((t0 :: rest).filter (fun t => bucketOf tf t.t = R'))) := by
        simpa [resample_to_ohlcv] using hbars.symm
      subst hb
      constructor
      · rintro ⟨b, hbmem, hbt⟩
        rw [List.mem_map] at hbmem
        obtain ⟨R', hR', rfl⟩ := hbmem
        rw [mkBar_open_time] at hbt
        subst hbt
        rw [List.mem_dedup, List.mem_map] at hR'
        obtain ⟨tk, htk, htkb⟩ := hR'
        exact ⟨tk, htk, ((bucketOf_eq_iff tf tk.t _ htf).mp htkb).2⟩
      · rintro ⟨tk, htk, h1, h2⟩
        have hbtk : bucketOf tf tk.t = R :=
          (bucketOf_eq_iff tf tk.t R htf).mpr ⟨hR, h1, h2⟩
        refine ⟨mkBar R ((t0 :: rest).filter (fun t => bucketOf tf t.t = R)),
          List.mem_map.mpr ⟨R, ?_, rfl⟩, mkBar_open_time _ _⟩
        rw [List.mem_dedup, List.mem_map]
        exact ⟨tk, htk, hbtk⟩

/-- Claim C3 witness: the empty query window yields `None`, and on a
one-tick input the bar at boundary 1000 exists iff its interval holds
that tick. -/
theorem C3_bar_iff_tick_witness :
    (resample_to_ohlcv 1000 ([] : List RTick) = none ↔ ([] : List RTick) = []) ∧
    ((∃ b ∈ [(⟨1000, 100, 100, 100, 100, 1⟩ : Bar)], b.open_time = 1000) ↔
      ∃ tk ∈ [(⟨999, 100, 1⟩ : RTick)], tk.t ≤ 1000 ∧ 1000 < tk.t + 1000) :=
  ⟨(C3_bar_iff_tick 1000 [] (by decide)).1,
   (C3_bar_iff_tick 1000 [⟨999, 100, 1⟩] (by decide)).2
     [⟨1000, 100, 100, 100, 100, 1⟩]
     (by norm_num [resample_to_ohlcv, mkBar, bucketOf]) 1000 (by decide)⟩

/-- On an exactly affine sample `y = a + b·x`, the sums entering the
normal equations collapse. -/
theorem sums_of_affine (d : List (ℚ × ℚ)) (a b : ℚ)
    (h : ∀ p ∈ d, p.2 = a + b * p.1) :
    sumSnd d = a * d.length + b * sumFst d ∧
    sumMul d = a * sumFst d + b * sumSq d := by
  induction d with
  | nil => simp [sumSnd, sumFst, sumMul, sumSq]
  | cons p rest ih =>
    have hp : p.2 = a + b * p.1 := h p (List.mem_cons_self _ _)
    obtain ⟨ih1, ih2⟩ := ih (fun q hq => h q (List.mem_cons_of_mem _ hq))
    constructor
    · simp only [sumSnd, sumFst, List.map_cons, List.sum_cons, List.length_cons] at *
      rw [hp, ih1]
      push_cast
      ring
    · simp only [sumMul, sumFst, sumSq, List.map_cons, List.sum_cons] at *
      rw [hp, ih2]
      ring

/-- The OLS fit is exact on an exactly affine, non-degenerate sample:
the slope is `b`, the intercept `a`, and every residual vanishes. -/
theorem ols_affine_exact (d : List (ℚ × ℚ)) (a b : ℚ)
    (h : ∀ p ∈ d, p.2 = a + b * p.1) (hden : olsDen d ≠ 0) :
    olsSlope d = b ∧ olsIntercept d = a ∧ ∀ z ∈ olsResiduals d, z = 0 := by
  obtain ⟨h1, h2⟩ := sums_of_affine d a b h
  have hn : (d.length : ℚ) ≠ 0 := by
    cases d with
    | nil =>
      exfalso
      apply hden
      simp [olsDen, sumSq, sumFst]
    | cons p rest =>
      simp only [List.length_cons]
      push_cast
      positivity
  have hslope : olsSlope d = b := by
    rw [olsSlope, div_eq_iff hden, h1, h2, olsDen]
    ring
  have hint : olsIntercept d = a := by
    rw [olsIntercept, hslope, h1, div_eq_iff hn]
    ring
  refine ⟨hslope, hint, fun z hz => ?_⟩
  rw [olsResiduals, List.mem_map] at hz
  obtain ⟨p, hp, rfl⟩ := hz
  rw [hslope, hint, h p hp]
  ring

/-- Claim C5: the hedge ratio is the fitted slope of the OLS regression
of `ln(closeY)` on `ln(closeX)` with intercept, and the spread is the
residual series; on noiseless log-linear data — aligned closes with
`ln(closeY_t) = a + b·ln(closeX_t)` for every row, which is exactly what
`priceX_t = exp(x_t)`, `priceY_t = exp(a + b·x_t)` gives — and a
non-degenerate regressor, the recovered hedge ratio is exactly `b` and
the spread is zero at every point. -/
theorem C5_hedge_ratio_exact_on_synthetic (ln : ℚ → ℚ) (sym1 sym2 : String)
    (rows : List (ℤ × ℚ × ℚ)) (a b : ℚ) (hsym : sym1 ≠ sym2)
    (haff : ∀ r ∈ rows, ln r.2.1 = a + b * ln r.2.2)
    (hden : olsDen (rows.map (fun r => (ln r.2.2, ln r.2.1))) ≠ 0) :
    ∃ spread, calculate_hedge_ratio_and_spread ln ⟨sym1, sym2, rows⟩ sym1 sym2 =
        .ok (b, spread) ∧ ∀ z ∈ spread, z = 0 := by
  have hcols : colGet ⟨sym1, sym2, rows⟩ sym1 = .ok (rows.map (fun r => r.2.1)) := by
    simp [colGet]
  have hcols2 : colGet ⟨sym1, sym2, rows⟩ sym2 = .ok (rows.map (fun r => r.2.2)) := by
    simp [colGet, hsym, Ne.symm hsym]
  have hzip : ((rows.map (fun r => r.2.2)).zip (rows.map (fun r => r.2.1))).map
      (fun p => (ln p.1, ln p.2)) = rows.map (fun r => (ln r.2.2, ln r.2.1)) := by
    rw [List.zip_map', List.map_map]
    rfl
  have hd := ols_affine_exact (rows.map (fun r => (ln r.2.2, ln r.2.1))) a b
    (by
      intro p hp
      rw [List.mem_map] at hp
      obtain ⟨r, hr, rfl⟩ := hp
      exact haff r hr) hden
  refine ⟨olsResiduals (rows.map (fun r => (ln r.2.2, ln r.2.1))), ?_, hd.2.2⟩
  rw [calculate_hedge_ratio_and_spread, hcols, hcols2]
  simp only [Bind.bind, Except.bind, pure, Except.pure]
  rw [hzip, hd.1]

/-- The clamped window never exceeds the series length. -/
theorem effectiveWindow_le (w : ℤ) (n : ℕ) : effectiveWindow w n ≤ n := by
  unfold effectiveWindow
  split_ifs with h
  · exact min_le_left _ _
  · omega

/-- Counting the indices of `range n` from position `W - 1` on. -/
theorem countP_range_full (n W : ℕ) (hW : 1 ≤ W) (hN : W ≤ n) :
    (List.range n).countP (fun i => decide (W ≤ i + 1)) = n - W + 1 := by
  induction n with
  | zero => omega
  | succ m ih =>
    rw [List.range_succ, List.countP_append]
    by_cases hm : W ≤ m
    · rw [ih hm]
      simp only [List.countP_cons, List.countP_nil]
      rw [if_pos (by simpa using Nat.le_succ_of_le hm)]
      omega
    · have hWm : W = m + 1 := by omega
      subst hWm
      have hz : (List.range m).countP (fun i => decide (m + 1 ≤ i + 1)) = 0 := by
        rw [List.countP_eq_zero]
        intro i hi
        rw [List.mem_range] at hi
        simp only [decide_eq_true_eq]
        omega
      rw [hz]
      simp

/-- Claim C6 as stated is false on the code: with requested window `W = 1`
over `N = 3` aligned bars the effective window is `W' = 1` (since
`1 ≤ W ≤ N`, no clamping), so the claim promises `N − W' + 1 = 3` defined
z-score positions, but the pandas sample std of a single-point window is
NaN, so every z-score position is undefined (0 defined, not 3). -/
theorem C6_rolling_counterexample :
    ¬ (countDefined ((calculate_rolling_metrics [1, 2, 3] [1, 2, 3] [0, 1, 2] 1).z_score) =
        3 - effectiveWindow 1 3 + 1) := by
  decide

/-- Claim C6, amended: the effective window `W'` equals `W` when
`1 ≤ W ≤ N` and `min(N, 60)` otherwise, and the first `W' − 1` z-score
and rolling-correlation positions are always undefined; the count of
defined positions is exactly `N − W' + 1` provided `W' ≥ 2` and no full
window is degenerate (nonzero sample variance of the spread window for
the z-score; nonzero variance of both price windows for the
correlation) — with `W' = 1` or a degenerate window, further positions
are NaN (undefined), so fewer than `N − W' + 1` can be defined. -/
theorem C6_rolling_window_amended (dfy dfx spread : List ℚ) (w : ℤ)
    (hy : dfy.length = spread.length) (hx : dfx.length = spread.length) :
    effectiveWindow w spread.length =
      (if 1 ≤ w ∧ w ≤ (spread.length : ℤ) then w.toNat else min spread.length 60) ∧
    (∀ i, i + 1 < effectiveWindow w spread.length →
      (calculate_rolling_metrics dfy dfx spread w).z_score.get? i = some none ∧
      (calculate_rolling_metrics dfy dfx spread w).rolling_correlation.get? i = some none) ∧
    (2 ≤ effectiveWindow w spread.length →
      (∀ i, effectiveWindow w spread.length ≤ i + 1 → i < spread.length →
        sampleVar (windowSlice (effectiveWindow w spread.length) spread i) ≠ 0) →
      countDefined (calculate_rolling_metrics dfy dfx spread w).z_score =
        spread.length - effectiveWindow w spread.length + 1) ∧
    (2 ≤ effectiveWindow w spread.length →
      (∀ i, effectiveWindow w spread.length ≤ i + 1 → i < spread.length →
        sse (windowSlice (effectiveWindow w spread.length) dfy i) ≠ 0 ∧
        sse (windowSlice (effectiveWindow w spread.length) dfx i) ≠ 0) →
      countDefined (calculate_rolling_metrics dfy dfx spread w).rolling_correlation =
        spread.length - effectiveWindow w spread.length + 1) := by
  have hle : effectiveWindow w spread.length ≤ spread.length := effectiveWindow_le _ _
  refine ⟨?_, ?_, ?_, ?_⟩
  · unfold effectiveWindow
    split_ifs with h1 h2 h3 <;> omega
  · intro i hi
    have hiN : i < spread.length := by omega
    constructor
    · simp only [calculate_rolling_metrics, zScores]
      rw [List.get?_map, List.get?_range hiN]
      simp only [Option.map]
      rw [if_pos (Or.inl hi)]
    · simp only [calculate_rolling_metrics, rollingCorr]
      rw [List.get?_map, List.get?_range (by omega : i < dfy.length)]
      simp only [Option.map]
      rw [if_pos (Or.inl hi)]
  · intro h2 hvar
    simp only [calculate_rolling_metrics, zScores, countDefined]
    rw [List.countP_map]
    rw [List.countP_congr (q := fun i => decide (effectiveWindow w spread.length ≤ i + 1))
      (by
        intro i hi
        rw [List.mem_range] at hi
        simp only [Function.comp_apply, decide_eq_true_eq]
        by_cases hfull : effectiveWindow w spread.length ≤ i + 1
        · rw [if_neg (by omega), if_neg (hvar i hfull hi)]
          simp [hfull]
        · rw [if_pos (Or.inl (by omega))]
          simp [hfull])]
    exact countP_range_full _ _ (by omega) hle
  · intro h2 hvar
    simp only [calculate_rolling_metrics, rollingCorr, countDefined]
    rw [List.countP_map]
    rw [hy]
    rw [List.countP_congr (q := fun i => decide (effectiveWindow w spread.length ≤ i + 1))
      (by
        intro i hi
        rw [List.mem_range] at hi
        simp only [Function.comp_apply, decide_eq_true_eq]
        by_cases hfull : effectiveWindow w spread.length ≤ i + 1
        · rw [if_neg (by omega), if_neg (by
            rw [not_or]
            exact ⟨(hvar i hfull hi).1, (hvar i hfull hi).2⟩)]
          simp [hfull]
        · rw [if_pos (Or.inl (by omega))]
          simp [hfull])]
    exact countP_range_full _ _ (by omega) hle

/-- Claim C6 (amended) witness: with `W = 2` over `N = 2` aligned bars
and non-degenerate windows, the prefix of length `W' − 1 = 1` is
undefined and exactly `N − W' + 1 = 1` position of each series is
defined. -/
theorem C6_rolling_window_amended_witness :
    (calculate_rolling_metrics [1, 2] [2, 1] [0, 1] 2).z_score.get? 0 = some none ∧
    countDefined ((calculate_rolling_metrics [1, 2] [2, 1] [0, 1] 2).z_score) = 1 ∧
    countDefined ((calculate_rolling_metrics [1, 2] [2, 1] [0, 1] 2).rolling_correlation) = 1 := by
  have h := C6_rolling_window_amended [1, 2] [2, 1] [0, 1] 2 rfl rfl
  refine ⟨(h.2.1 0 (by decide)).1, ?_, ?_⟩
  · have := h.2.2.1 (by decide) (fun i h1 h2 => by
      have hi : i = 1 := by
        have h12 : (1 : ℕ) ≤ i ∧ i < 2 := by
          simpa [effectiveWindow] using And.intro h1 h2
        omega
      subst hi
      norm_num [sampleVar, sse, qmean, windowSlice, effectiveWindow])
    simpa [effectiveWindow] using this
  · have := h.2.2.2 (by decide) (fun i h1 h2 => by
      have hi : i = 1 := by
        have h12 : (1 : ℕ) ≤ i ∧ i < 2 := by
          simpa [effectiveWindow] using And.intro h1 h2
        omega
      subst hi
      constructor <;> norm_num [sse, qmean, windowSlice, effectiveWindow])
    simpa [effectiveWindow] using this

/-- Claim C7: the stationarity step never raises.  For every spread
series: after dropping undefined points, fewer than 20 remaining
observations yield the structured insufficient-data report; with 20 or
more, a successful `adfuller` call yields the full report whose
"stationary at 95% confidence" boolean is true iff the p-value is below
0.05, and a raising `adfuller` call is caught and reported as a failure
diagnostic — in every case a structured `AdfReport` value is returned
(and the hedge ratio / spread computed before this step are unaffected
by its outcome). -/
theorem C7_adf_structured_total (adf : List ℚ → Except String AdfRes)
    (spread : List (Option ℚ)) :
    ((spread.filterMap id).length < 20 →
      run_adf_test adf spread = .insufficient insufficientMsg) ∧
    (20 ≤ (spread.filterMap id).length →
      (∀ r, adf (spread.filterMap id) = .ok r →
        run_adf_test adf spread =
          .report (round4 r.stat) (round4 r.pvalue) r.lags r.nobs r.crit
            (decide (r.pvalue < 1 / 20))) ∧
      (∀ e, adf (spread.filterMap id) = .error e →
        run_adf_test adf spread = .failed ("ADF test failed: " ++ e))) ∧
    (∀ stat p lags nobs crit b,
      run_adf_test adf spread = .report stat p lags nobs crit b →
      ∃ r, adf (spread.filterMap id) = .ok r ∧ (b = true ↔ r.pvalue < 1 / 20)) := by
  refine ⟨?_, ?_, ?_⟩
  · intro h
    simp [run_adf_test, h]
  · intro h
    constructor
    · intro r hr
      simp [run_adf_test, Nat.not_lt.mpr h, hr]
    · intro e he
      simp [run_adf_test, Nat.not_lt.mpr h, he]
  · intro stat p lags nobs crit b h
    by_cases hlen : (spread.filterMap id).length < 20
    · simp [run_adf_test, hlen] at h
    · cases hadf : adf (spread.filterMap id) with
      | ok r =>
        refine ⟨r, rfl, ?_⟩
        simp only [run_adf_test, if_neg hlen, hadf] at h
        have hb : b = decide (r.pvalue < 1 / 20) := by
          injection h with h1 h2 h3 h4 h5 h6
          exact h6.symm
        rw [hb]
        simp
      | error e =>
        simp [run_adf_test, hlen, hadf] at h

/-- Claim C7 witness at a 20-observation spread (report case, failure
case) and a 19-observation spread (insufficient-data case). -/
theorem C7_adf_structured_total_witness :
    run_adf_test (fun _ => Except.ok ⟨0, 0, 1, 20, []⟩) (List.replicate 20 (some (0 : ℚ))) =
      .report (round4 0) (round4 0) 1 20 [] (decide ((0 : ℚ) < 1 / 20)) ∧
    run_adf_test (fun _ => Except.error "LinAlgError")
        (List.replicate 20 (some (0 : ℚ))) =
      .failed ("ADF test failed: " ++ "LinAlgError") ∧
    run_adf_test (fun _ => Except.ok ⟨0, 0, 1, 20, []⟩) (List.replicate 19 (some (0 : ℚ))) =
      .insufficient insufficientMsg := by
  refine ⟨?_, ?_, ?_⟩
  · exact ((C7_adf_structured_total _ _).2.1 (by simp)).1 ⟨0, 0, 1, 20, []⟩ rfl
  · exact ((C7_adf_structured_total _ _).2.1 (by simp)).2 "LinAlgError" rfl
  · exact (C7_adf_structured_total (fun _ => Except.ok ⟨0, 0, 1, 20, []⟩) _).1 (by simp)

/-- Claim C9: a message that fails to parse as a trade event — malformed
JSON, a non-trade event type, or a missing required field — normalizes to
no tick and raises nothing; the message contributes no delivery to the
sink, and the receive loop processes the remaining messages exactly as if
the bad message were absent (the session continues). -/
theorem C9_bad_message_dropped (pre post : List RawMsg) (m : RawMsg)
    (hbad : m = (none : RawMsg) ∨
      ∃ j, m = some j ∧
        (jget j "e" ≠ some (.str "trade") ∨ jget j "s" = none ∨ jget j "T" = none ∨
         jget j "p" = none ∨ jget j "q" = none)) :
    normalize_tick_data m = none ∧
    connect_and_listen_deliveries (pre ++ m :: post) =
      connect_and_listen_deliveries pre ++ connect_and_listen_deliveries post := by
  have hnone : normalize_tick_data m = none := by
    rcases hbad with rfl | ⟨j, rfl, hcase⟩
    · rfl
    · by_cases he : jget j "e" = some (.str "trade")
      · rcases hcase with he' | hs | hT | hp | hq
        · exact absurd he he'
        · cases hT' : asIntMs (jget j "T") with
          | error e => simp [normalize_tick_data, he, bind, Except.bind, hT']
          | ok n =>
            simp [normalize_tick_data, he, bind, Except.bind, hT',
              show asStr (jget j "s") = Except.error "AttributeError" by simp [hs, asStr]]
        · simp [normalize_tick_data, he, bind, Except.bind,
            show asIntMs (jget j "T") = Except.error "TypeError" by simp [hT, asIntMs]]
        · cases hT' : asIntMs (jget j "T") with
          | error e => simp [normalize_tick_data, he, bind, Except.bind, hT']
          | ok n =>
            cases hS : asStr (jget j "s") with
            | error e => simp [normalize_tick_data, he, bind, Except.bind, hT', hS]
            | ok s =>
              simp [normalize_tick_data, he, bind, Except.bind, hT', hS,
                show asFloat (jget j "p") = Except.error "TypeError" by simp [hp, asFloat]]
        · cases hT' : asIntMs (jget j "T") with
          | error e => simp [normalize_tick_data, he, bind, Except.bind, hT']
          | ok n =>
            cases hS : asStr (jget j "s") with
            | error e => simp [normalize_tick_data, he, bind, Except.bind, hT', hS]
            | ok s =>
              cases hP : asFloat (jget j "p") with
              | error e => simp [normalize_tick_data, he, bind, Except.bind, hT', hS, hP]
              | ok p =>
                simp [normalize_tick_data, he, bind, Except.bind, hT', hS, hP,
                  show asFloat (jget j "q") = Except.error "TypeError" by simp [hq, asFloat]]
      · simp [normalize_tick_data, he]
  refine ⟨hnone, ?_⟩
  rw [connect_and_listen_deliveries, connect_and_listen_deliveries,
    connect_and_listen_deliveries, List.filterMap_append, List.filterMap_cons, hnone]

/-- Claim C9 witness: a malformed message and a wrong-event message
between two valid trade messages are dropped while both valid messages
are still delivered. -/
theorem C9_bad_message_dropped_witness :
    normalize_tick_data (some [("e", JVal.str "depthUpdate")]) = none ∧
    connect_and_listen_deliveries
        ([some [("e", JVal.str "trade"), ("T", JVal.int 1000), ("s", JVal.str "btcusdt"),
                ("p", JVal.int 100), ("q", JVal.int 2)]] ++
          some [("e", JVal.str "depthUpdate")] ::
            [some [("e", JVal.str "trade"), ("T", JVal.int 2000), ("s", JVal.str "btcusdt"),
                   ("p", JVal.int 101), ("q", JVal.int 3)]]) =
      connect_and_listen_deliveries
          [some [("e", JVal.str "trade"), ("T", JVal.int 1000), ("s", JVal.str "btcusdt"),
                 ("p", JVal.int 100), ("q", JVal.int 2)]] ++
        connect_and_listen_deliveries
          [some [("e", JVal.str "trade"), ("T", JVal.int 2000), ("s", JVal.str "btcusdt"),
                 ("p", JVal.int 101), ("q", JVal.int 3)]] :=
  C9_bad_message_dropped _ _ _
    (Or.inr ⟨[("e", JVal.str "depthUpdate")], rfl, Or.inl (by decide)⟩)

/-- Claim C8: analysis runs are pure in the arguments and the store.
The outcome of `run_full_analysis` — and the full response of the
`/api/v1/analysis` handler, including the metadata it reads back from
the shared analyst object after the run — is independent of the analyst
state left behind by any earlier run: two runs with the same arguments,
store contents, clock and library functions produce identical results
from arbitrary prior states, so the only shared input that matters is
the store itself. -/
theorem C8_state_noninterference (ln : ℚ → ℚ) (adf : List ℚ → Except String AdfRes)
    (st1 st2 : AnalystState) (db : List TickRow) (sym1 sym2 : String)
    (tf w lb now : ℤ) :
    (run_full_analysis ln adf st1 db sym1 sym2 tf w now lb).2 =
      (run_full_analysis ln adf st2 db sym1 sym2 tf w now lb).2 ∧
    (get_pairs_analysis ln adf st1 db sym1 sym2 tf w lb now).2 =
      (get_pairs_analysis ln adf st2 db sym1 sym2 tf w lb now).2 := by
  cases halign : _align_and_prepare_data db sym1 sym2 tf now lb with
  | none => exact ⟨by simp [run_full_analysis, halign],
      by simp [get_pairs_analysis, run_full_analysis, halign]⟩
  | some cols =>
    cases hh : calculate_hedge_ratio_and_spread ln cols sym1 sym2 with
    | error e => exact ⟨by simp [run_full_analysis, halign, hh],
        by simp [get_pairs_analysis, run_full_analysis, halign, hh]⟩
    | ok pr =>
      obtain ⟨hr, spread⟩ := pr
      exact ⟨by simp [run_full_analysis, halign, hh],
        by simp [get_pairs_analysis, run_full_analysis, halign, hh]⟩

/-- A successful resample always yields at least one bar. -/
theorem resample_some_ne_nil (tf : ℤ) (ticks : List RTick) (bars : List Bar)
    (h : resample_to_ohlcv tf ticks = some bars) : bars ≠ [] := by
  match ticks, h with
  | t0 :: rest, h =>
    have hb : bars = (((t0 :: rest).map (fun t => bucketOf tf t.t)).dedup).map
        (fun R => mkBar R ((t0 :: rest).filter (fun t => bucketOf tf t.t = R))) := by
      simpa [resample_to_ohlcv] using h.symm
    subst hb
    intro hnil
    rw [List.map_eq_nil] at hnil
    have hmem : bucketOf tf t0.t ∈ ((t0 :: rest).map (fun t => bucketOf tf t.t)).dedup := by
      rw [List.mem_dedup]
      exact List.mem_map_of_mem _ (List.mem_cons_self _ _)
    rw [hnil] at hmem
    exact absurd hmem (List.not_mem_nil _)

/-- The inner join of a non-empty bar frame with itself is non-empty. -/
theorem innerJoin_self_ne_nil (bars : List Bar) (h : bars ≠ []) :
    innerJoin bars bars ≠ [] := by
  match bars, h with
  | b0 :: rest, _ =>
    simp only [innerJoin, List.filterMap_cons]
    rw [List.find?_cons_of_pos _ (by simp)]
    simp

/-- Claim C10: calling `run_full_analysis` with both legs set to the same
instrument, while that instrument has bars in the window, raises: the
self-merge gives both close columns the same name, pandas suffixes them
`_x`/`_y`, and the subsequent lookup of the column under the bare symbol
name fails with a `KeyError` that propagates out of the call — no
`AnalysisResult` and no insufficient-data `None` is returned. -/
theorem C10_same_symbol_raises (ln : ℚ → ℚ) (adf : List ℚ → Except String AdfRes)
    (st : AnalystState) (db : List TickRow) (sym : String) (tf w now lb : ℤ)
    (bars : List Bar)
    (hbars : resampler_resample_to_ohlcv db sym tf now lb = some bars) :
    (run_full_analysis ln adf st db sym sym tf w now lb).2 =
      .error ("KeyError: " ++ sym) := by
  have hne : bars ≠ [] := by
    cases hg : _get_ticks_for_resampling db sym now lb with
    | none => simp [resampler_resample_to_ohlcv, hg] at hbars
    | some ticks =>
      exact resample_some_ne_nil tf ticks bars
        (by simpa [resampler_resample_to_ohlcv, hg] using hbars)
  have hjoin := innerJoin_self_ne_nil bars hne
  obtain ⟨r0, rrest, hrows⟩ := List.exists_cons_of_ne_nil hjoin
  have halign : _align_and_prepare_data db sym sym tf now lb =
      some ⟨sym ++ "_x", sym ++ "_y", innerJoin bars bars⟩ := by
    simp only [_align_and_prepare_data, hbars, hrows]
    simp
  have h1 : sym ≠ sym ++ "_x" := by
    intro h
    have hlen := congrArg String.length h
    rw [String.length_append] at hlen
    have h2c : "_x".length = 2 := rfl
    omega
  have h2 : sym ≠ sym ++ "_y" := by
    intro h
    have hlen := congrArg String.length h
    rw [String.length_append] at hlen
    have h2c : "_y".length = 2 := rfl
    omega
  have hhedge : calculate_hedge_ratio_and_spread ln
      ⟨sym ++ "_x", sym ++ "_y", innerJoin bars bars⟩ sym sym =
      .error ("KeyError: " ++ sym) := by
    rw [calculate_hedge_ratio_and_spread]
    rw [colGet, if_neg h1, if_neg h2]
    rfl
  rw [run_full_analysis, halign]
  simp [hhedge]

/-- Claim C5 witness on concrete noiseless log-linear data with `a = 1`,
`b = 2` (log-prices taken with the identity as the log map): the
recovered hedge ratio is 2 and the spread vanishes. -/
theorem C5_hedge_ratio_exact_on_synthetic_witness :
    ∃ spread, calculate_hedge_ratio_and_spread id
        ⟨"Y", "X", [(0, 21, 10), (1, 41, 20)]⟩ "Y" "X" = .ok (2, spread) ∧
      ∀ z ∈ spread, z = 0 :=
  C5_hedge_ratio_exact_on_synthetic id "Y" "X" [(0, 21, 10), (1, 41, 20)] 1 2
    (by decide)
    (by
      intro r hr
      fin_cases hr <;> norm_num)
    (by norm_num [olsDen, sumSq, sumFst])

/-- Claim C10 witness: a one-tick store for BTCUSDT, the pair
(BTCUSDT, BTCUSDT), an in-window query — the run returns the propagated
`KeyError` instead of a result or `None`. -/
theorem C10_same_symbol_raises_witness :
    (run_full_analysis id (fun _ => Except.error "unused") ⟨none⟩
        [⟨"BTCUSDT_0", "BTCUSDT", 0, 1, 1, 0⟩] "BTCUSDT" "BTCUSDT" 1000 60 0 0).2 =
      .error ("KeyError: " ++ "BTCUSDT") :=
  C10_same_symbol_raises id (fun _ => Except.error "unused") ⟨none⟩
    [⟨"BTCUSDT_0", "BTCUSDT", 0, 1, 1, 0⟩] "BTCUSDT" 1000 60 0 0
    [⟨0, 1, 1, 1, 1, 1⟩]
    (by norm_num [resampler_resample_to_ohlcv, _get_ticks_for_resampling, get_raw_ticks,
      resample_to_ohlcv, mkBar, bucketOf, List.insertionSort, List.orderedInsert, byTs])
